import Mathlib

/-!
Shallow embedding of the facility-inventory-manager server core: the
entity store (users, categories, assets, lendings), the category and
asset services, the lending engine, and the category-summary report.

Conventions of the embedding:
* the relational store is a quadruple of row lists; a `select ... where
  eq(id)` that the source reads through `result[0]` becomes `List.find?`;
  an `update ... where eq(id)` becomes `List.map` guarded by the id test;
  an insert becomes list append with a fresh serial id;
* timestamps are abstract (`Nat`); each handler that calls `new Date()`
  receives the current instant as an explicit `now` argument;
* the `numeric(10, 2)` monetary columns hold an integer number of
  hundredths (the value denoted by the stored decimal string); the
  JavaScript `toString` / `parseFloat` boundary conversions become the
  exact rational conversions `toCents` / division by 100;
* JavaScript `x || y` on string-or-null values is translated faithfully,
  including the fact that the empty string is falsy;
* a thrown `Error` becomes `Except.error` carrying a `DbError` whose
  `message` is the exact string thrown by the source.
-/

deriving instance DecidableEq for Except

abbrev Timestamp := Nat

inductive UserRole where
  | admin | manager | staff
deriving DecidableEq, Repr

inductive AssetStatus where
  | available | lent | maintenance | damaged | retired
deriving DecidableEq, Repr

inductive LendingStatus where
  | active | returned | overdue
deriving DecidableEq, Repr

inductive AssetCondition where
  | good | damaged | needs_maintenance
deriving DecidableEq, Repr

/-- Error taxonomy of the handlers; constructors carry the data that the
source interpolates into the thrown message. -/
inductive DbError where
  | assetNotFound
  | assetNotAvailable
  | userNotFound
  | lendingNotFound
  | lendingNotActive
  | categoryNotFoundId (id : Nat)
  | categoryHasAssets (n : Nat)
  | categoryDoesNotExist (id : Nat)
  | assetNotFoundId (id : Nat)
  | assetHasLendingHistory
  | usernameExists
  | emailExists
deriving DecidableEq, Repr

inductive ErrKind where
  | notFound | conflict
deriving DecidableEq, Repr

/-- Classification of each error per the specification's taxonomy:
missing referenced entity is NotFound, violated business invariant is
Conflict. -/
def DbError.kind : DbError → ErrKind
  | .assetNotFound => .notFound
  | .assetNotAvailable => .conflict
  | .userNotFound => .notFound
  | .lendingNotFound => .notFound
  | .lendingNotActive => .conflict
  | .categoryNotFoundId _ => .notFound
  | .categoryHasAssets _ => .conflict
  | .categoryDoesNotExist _ => .notFound
  | .assetNotFoundId _ => .notFound
  | .assetHasLendingHistory => .conflict
  | .usernameExists => .conflict
  | .emailExists => .conflict

/-- The exact message string thrown by the source for each error. -/
def DbError.message : DbError → String
  | .assetNotFound => "Asset not found"
  | .assetNotAvailable => "Asset is not available for lending"
  | .userNotFound => "User not found"
  | .lendingNotFound => "Lending record not found"
  | .lendingNotActive => "Lending record is not active"
  | .categoryNotFoundId id => "Category with id " ++ toString id ++ " not found"
  | .categoryHasAssets n =>
      "Cannot delete category with " ++ toString n ++ " associated assets"
  | .categoryDoesNotExist id =>
      "Category with id " ++ toString id ++ " does not exist"
  | .assetNotFoundId id => "Asset with id " ++ toString id ++ " not found"
  | .assetHasLendingHistory => "Cannot delete asset that has lending history"
  | .usernameExists => "Username already exists"
  | .emailExists => "Email already exists"

structure User where
  id : Nat
  username : String
  email : String
  password_hash : String
  role : UserRole
  created_at : Timestamp
  updated_at : Timestamp
deriving DecidableEq, Repr

structure Category where
  id : Nat
  name : String
  description : Option String
  created_at : Timestamp
  updated_at : Timestamp
deriving DecidableEq, Repr

/-- Asset row as stored; `purchase_price` and `current_value` are the
`numeric(10, 2)` columns, held as an integer count of hundredths. -/
structure Asset where
  id : Nat
  name : String
  description : Option String
  category_id : Nat
  serial_number : Option String
  purchase_date : Option Timestamp
  purchase_price : Option Int
  current_value : Option Int
  status : AssetStatus
  location : Option String
  created_at : Timestamp
  updated_at : Timestamp
deriving DecidableEq, Repr

structure Lending where
  id : Nat
  asset_id : Nat
  borrower_name : String
  borrower_email : Option String
  borrower_phone : Option String
  department : Option String
  lent_date : Timestamp
  expected_return_date : Timestamp
  actual_return_date : Option Timestamp
  status : LendingStatus
  notes : Option String
  lent_by_user_id : Nat
  returned_by_user_id : Option Nat
  created_at : Timestamp
  updated_at : Timestamp
deriving DecidableEq, Repr

/-- The relational store. -/
structure DB where
  users : List User
  categories : List Category
  assets : List Asset
  lendings : List Lending
deriving DecidableEq, Repr

def emptyDB : DB := ⟨[], [], [], []⟩

/-- Fresh serial id for an insert: one more than the largest id in use. -/
def freshId (ids : List Nat) : Nat := ids.foldr max 0 + 1

/-- JavaScript `s || null` on a nullable string: the empty string is
falsy, so it collapses to null. -/
def orNull : Option String → Option String
  | some s => if s = "" then none else some s
  | none => none

/-- Executable floor of a rational (`Int.floor` through `Int.fdiv`). -/
def ratFloor (q : ℚ) : Int := q.num.fdiv q.den

/-- Conversion of a rational monetary amount to the hundredths stored by
a `numeric(10, 2)` column (PostgreSQL rounds half away from zero; all
inputs are positive by schema validation, so floor of `q * 100 + 1/2`). -/
def toCents (q : ℚ) : Int := ratFloor (q * 100 + 1 / 2)

/-- Stored hundredths back to the rational that `parseFloat` reads off
the decimal string. -/
def centsOut (c : Int) : ℚ := (c : ℚ) / 100

/-- JavaScript `Math.round(q * 100) / 100` on a non-negative rational. -/
def jsRound2 (q : ℚ) : ℚ := (ratFloor (q * 100 + 1 / 2) : ℚ) / 100

section LendingEngine

structure CreateLendingInput where
  asset_id : Nat
  borrower_name : String
  borrower_email : Option String
  borrower_phone : Option String
  department : Option String
  expected_return_date : Timestamp
  notes : Option String
  lent_by_user_id : Nat
deriving DecidableEq, Repr

structure ReturnAssetInput where
  lending_id : Nat
  returned_by_user_id : Nat
  return_notes : Option String
  asset_condition : Option AssetCondition
deriving DecidableEq, Repr

/-- Patch accepted by `updateLending` (`Partial<Lending>`): an outer
`none` means the field is absent (`undefined`); for nullable columns the
inner option is the value, which may itself be null. A `status` field
may be present but the handler never copies it into the update. -/
structure UpdateLendingPatch where
  borrower_name : Option String := none
  borrower_email : Option (Option String) := none
  borrower_phone : Option (Option String) := none
  department : Option (Option String) := none
  expected_return_date : Option Timestamp := none
  notes : Option (Option String) := none
  status : Option LendingStatus := none
deriving DecidableEq, Repr

/-- `createLending` (handlers/lendings): availability check, user check,
insert of the lending row, then the asset status flip to `lent`. -/
def createLending (input : CreateLendingInput) (now : Timestamp) (db : DB) :
    Except DbError (Lending × DB) :=
  match db.assets.find? (fun a => a.id = input.asset_id) with
  | none => .error .assetNotFound
  | some asset =>
    if asset.status ≠ AssetStatus.available then .error .assetNotAvailable
    else
      match db.users.find? (fun u => u.id = input.lent_by_user_id) with
      | none => .error .userNotFound
      | some _ =>
        let l : Lending :=
          { id := freshId (db.lendings.map (·.id))
            asset_id := input.asset_id
            borrower_name := input.borrower_name
            borrower_email := orNull input.borrower_email
            borrower_phone := orNull input.borrower_phone
            department := orNull input.department
            lent_date := now
            expected_return_date := input.expected_return_date
            actual_return_date := none
            status := .active
            notes := orNull input.notes
            lent_by_user_id := input.lent_by_user_id
            returned_by_user_id := none
            created_at := now
            updated_at := now }
        let assets' := db.assets.map fun a =>
          if a.id = input.asset_id then
            { a with status := AssetStatus.lent, updated_at := now }
          else a
        .ok (l, { db with lendings := db.lendings ++ [l], assets := assets' })

/-- The asset status chosen by `returnAsset` from the reported
condition: damaged and needs_maintenance map to the matching statuses,
anything else (good or omitted) to available. -/
def conditionToStatus : Option AssetCondition → AssetStatus
  | some .damaged => .damaged
  | some .needs_maintenance => .maintenance
  | _ => .available

/-- The notes written by `returnAsset`: the source computes
`input.return_notes || lending[0].notes`, so a provided non-empty string
wins and a null or empty `return_notes` keeps the old notes. -/
def returnNotes (return_notes : Option String) (old : Option String) :
    Option String :=
  match return_notes with
  | some s => if s = "" then old else some s
  | none => old

/-- `returnAsset` (handlers/lendings): active check, user check, lending
update to `returned`, then the asset status update from the condition. -/
def returnAsset (input : ReturnAssetInput) (now : Timestamp) (db : DB) :
    Except DbError (Lending × DB) :=
  match db.lendings.find? (fun l => l.id = input.lending_id) with
  | none => .error .lendingNotFound
  | some l0 =>
    if l0.status ≠ LendingStatus.active then .error .lendingNotActive
    else
      match db.users.find? (fun u => u.id = input.returned_by_user_id) with
      | none => .error .userNotFound
      | some _ =>
        let upd := fun (l : Lending) =>
          { l with
            actual_return_date := some now
            status := LendingStatus.returned
            returned_by_user_id := some input.returned_by_user_id
            notes := returnNotes input.return_notes l0.notes
            updated_at := now }
        let lendings' := db.lendings.map fun l =>
          if l.id = input.lending_id then upd l else l
        let assets' := db.assets.map fun a =>
          if a.id = l0.asset_id then
            { a with status := conditionToStatus input.asset_condition,
                     updated_at := now }
          else a
        .ok (upd l0, { db with lendings := lendings', assets := assets' })

/-- `updateLending` (handlers/lendings): existence check, then an update
of the six descriptive fields that are present in the patch, always
bumping `updated_at`; `status` is never copied from the patch. -/
def updateLending (id : Nat) (updates : UpdateLendingPatch) (now : Timestamp)
    (db : DB) : Except DbError (Lending × DB) :=
  match db.lendings.find? (fun l => l.id = id) with
  | none => .error .lendingNotFound
  | some l0 =>
    let apply := fun (l : Lending) =>
      { l with
        borrower_name := updates.borrower_name.getD l.borrower_name
        borrower_email := updates.borrower_email.getD l.borrower_email
        borrower_phone := updates.borrower_phone.getD l.borrower_phone
        department := updates.department.getD l.department
        expected_return_date :=
          updates.expected_return_date.getD l.expected_return_date
        notes := updates.notes.getD l.notes
        updated_at := now }
    let lendings' := db.lendings.map fun l => if l.id = id then apply l else l
    .ok (apply l0, { db with lendings := lendings' })

end LendingEngine

section AssetService

/-- Asset as returned to callers: the monetary columns converted from
the stored decimal representation to numbers. -/
structure AssetOut where
  id : Nat
  name : String
  description : Option String
  category_id : Nat
  serial_number : Option String
  purchase_date : Option Timestamp
  purchase_price : Option ℚ
  current_value : Option ℚ
  status : AssetStatus
  location : Option String
  created_at : Timestamp
  updated_at : Timestamp
deriving DecidableEq, Repr

/-- The read-side conversion `x ? parseFloat(x) : null` applied to both
monetary columns (a stored decimal string is non-empty, hence truthy). -/
def Asset.toOut (a : Asset) : AssetOut :=
  { id := a.id, name := a.name, description := a.description
    category_id := a.category_id, serial_number := a.serial_number
    purchase_date := a.purchase_date
    purchase_price := a.purchase_price.map centsOut
    current_value := a.current_value.map centsOut
    status := a.status, location := a.location
    created_at := a.created_at, updated_at := a.updated_at }

structure AssetWithCategory where
  asset : AssetOut
  category : Category
deriving DecidableEq, Repr

/-- The write-side conversion `x ? x.toString() : null` applied to a
monetary input (zero is falsy in JavaScript, so it stores null; schema
validation only admits positive values anyway). -/
def moneyIn : Option ℚ → Option Int
  | some p => if p = 0 then none else some (toCents p)
  | none => none

structure CreateAssetInput where
  name : String
  description : Option String := none
  category_id : Nat
  serial_number : Option String := none
  purchase_date : Option Timestamp := none
  purchase_price : Option ℚ := none
  current_value : Option ℚ := none
  status : AssetStatus := .available
  location : Option String := none
deriving DecidableEq, Repr

structure UpdateAssetInput where
  id : Nat
  name : Option String := none
  description : Option (Option String) := none
  category_id : Option Nat := none
  serial_number : Option (Option String) := none
  purchase_date : Option (Option Timestamp) := none
  purchase_price : Option (Option ℚ) := none
  current_value : Option (Option ℚ) := none
  status : Option AssetStatus := none
  location : Option (Option String) := none
deriving DecidableEq, Repr

/-- `createAsset` (handlers/assets): category existence check, then the
insert with `|| null` defaulting and monetary string conversion. -/
def createAsset (input : CreateAssetInput) (now : Timestamp) (db : DB) :
    Except DbError (AssetOut × DB) :=
  if (db.categories.filter (fun c => c.id = input.category_id)).length = 0 then
    .error (.categoryDoesNotExist input.category_id)
  else
    let a : Asset :=
      { id := freshId (db.assets.map (·.id))
        name := input.name
        description := orNull input.description
        category_id := input.category_id
        serial_number := orNull input.serial_number
        purchase_date := input.purchase_date
        purchase_price := moneyIn input.purchase_price
        current_value := moneyIn input.current_value
        status := input.status
        location := orNull input.location
        created_at := now
        updated_at := now }
    .ok (a.toOut, { db with assets := db.assets ++ [a] })

/-- Inner join of assets with their categories, in nested-loop order;
the source's `select().from(assets).innerJoin(categories, ...)`. -/
def assetCategoryJoin (db : DB) : List (Asset × Category) :=
  db.assets.flatMap fun a =>
    (db.categories.filter (fun c => c.id = a.category_id)).map fun c => (a, c)

/-- `getAssetById` (handlers/assets): joined lookup, `results[0]`. -/
def getAssetById (id : Nat) (db : DB) : Option AssetWithCategory :=
  ((assetCategoryJoin db).find? (fun p => p.1.id = id)).map fun p =>
    { asset := p.1.toOut, category := p.2 }

/-- Field application of `updateAsset`: only fields present in the patch
are written, `updated_at` always is. -/
def applyAssetUpdate (input : UpdateAssetInput) (now : Timestamp) (a : Asset) :
    Asset :=
  { a with
    name := input.name.getD a.name
    description := input.description.getD a.description
    category_id := input.category_id.getD a.category_id
    serial_number := input.serial_number.getD a.serial_number
    purchase_date := input.purchase_date.getD a.purchase_date
    purchase_price :=
      match input.purchase_price with
      | some v => moneyIn v
      | none => a.purchase_price
    current_value :=
      match input.current_value with
      | some v => moneyIn v
      | none => a.current_value
    status := input.status.getD a.status
    location := input.location.getD a.location
    updated_at := now }

/-- `updateAsset` (handlers/assets): existence check, category
re-validation when `category_id` is in the patch, then the update. -/
def updateAsset (input : UpdateAssetInput) (now : Timestamp) (db : DB) :
    Except DbError (AssetOut × DB) :=
  match db.assets.find? (fun a => a.id = input.id) with
  | none => .error (.assetNotFoundId input.id)
  | some a0 =>
    let proceed : Except DbError (AssetOut × DB) :=
      let assets' := db.assets.map fun a =>
        if a.id = input.id then applyAssetUpdate input now a else a
      .ok ((applyAssetUpdate input now a0).toOut, { db with assets := assets' })
    match input.category_id with
    | some cid =>
      if (db.categories.filter (fun c => c.id = cid)).length = 0 then
        .error (.categoryDoesNotExist cid)
      else proceed
    | none => proceed

/-- `deleteAsset` (handlers/assets): existence check, then the lending
history check that permanently blocks deletion. -/
def deleteAsset (id : Nat) (db : DB) : Except DbError DB :=
  match db.assets.find? (fun a => a.id = id) with
  | none => .error (.assetNotFoundId id)
  | some _ =>
    if (db.lendings.filter (fun l => l.asset_id = id)).length > 0 then
      .error .assetHasLendingHistory
    else
      .ok { db with assets := db.assets.filter (fun a => a.id ≠ id) }

end AssetService

section CategoryService

structure CreateCategoryInput where
  name : String
  description : Option String := none
deriving DecidableEq, Repr

structure UpdateCategoryInput where
  id : Nat
  name : Option String := none
  description : Option (Option String) := none
deriving DecidableEq, Repr

/-- `createCategory` (handlers/categories). -/
def createCategory (input : CreateCategoryInput) (now : Timestamp) (db : DB) :
    Except DbError (Category × DB) :=
  let c : Category :=
    { id := freshId (db.categories.map (·.id))
      name := input.name
      description := orNull input.description
      created_at := now
      updated_at := now }
  .ok (c, { db with categories := db.categories ++ [c] })

/-- `getCategoryById` (handlers/categories): `result[0] || null`. -/
def getCategoryById (id : Nat) (db : DB) : Option Category :=
  db.categories.find? (fun c => c.id = id)

/-- `updateCategory` (handlers/categories): existence check; an empty
patch returns the existing row without writing; otherwise only the
present fields among name and description are written, and `updated_at`
is not refreshed. -/
def updateCategory (input : UpdateCategoryInput) (db : DB) :
    Except DbError (Category × DB) :=
  match getCategoryById input.id db with
  | none => .error (.categoryNotFoundId input.id)
  | some existing =>
    if input.name = none ∧ input.description = none then .ok (existing, db)
    else
      let apply := fun (c : Category) =>
        { c with
          name := input.name.getD c.name
          description := input.description.getD c.description }
      let categories' := db.categories.map fun c =>
        if c.id = input.id then apply c else c
      .ok (apply existing, { db with categories := categories' })

/-- `deleteCategory` (handlers/categories): existence check, then the
associated-assets check whose count is interpolated into the message. -/
def deleteCategory (id : Nat) (db : DB) : Except DbError DB :=
  match getCategoryById id db with
  | none => .error (.categoryNotFoundId id)
  | some _ =>
    let assoc := db.assets.filter (fun a => a.category_id = id)
    if assoc.length > 0 then .error (.categoryHasAssets assoc.length)
    else
      .ok { db with categories := db.categories.filter (fun c => c.id ≠ id) }

end CategoryService

section AuthService

structure CreateUserInput where
  username : String
  email : String
  password : String
  role : UserRole
deriving DecidableEq, Repr

/-- `createUser` (handlers/auth): username and email uniqueness checks,
then the insert. The SHA-256 password hashing is outside the modeled
core (the specification excludes the credential scheme), so the hash
function is a parameter. -/
def createUser (hash : String → String) (input : CreateUserInput)
    (now : Timestamp) (db : DB) : Except DbError (User × DB) :=
  if (db.users.filter (fun u => u.username = input.username)).length > 0 then
    .error .usernameExists
  else if (db.users.filter (fun u => u.email = input.email)).length > 0 then
    .error .emailExists
  else
    let u : User :=
      { id := freshId (db.users.map (·.id))
        username := input.username
        email := input.email
        password_hash := hash input.password
        role := input.role
        created_at := now
        updated_at := now }
    .ok (u, { db with users := db.users ++ [u] })

end AuthService

section LendingQueries

structure LendingWithDetails where
  lending : Lending
  asset : AssetOut
  category : Category
deriving DecidableEq, Repr

/-- Three-way inner join lendings, assets, categories in nested-loop
order, as produced by the lending query handlers. -/
def lendingDetailsJoin (db : DB) : List (Lending × Asset × Category) :=
  db.lendings.flatMap fun l =>
    (db.assets.filter (fun a => a.id = l.asset_id)).flatMap fun a =>
      (db.categories.filter (fun c => c.id = a.category_id)).map fun c =>
        (l, a, c)

def toDetails (r : Lending × Asset × Category) : LendingWithDetails :=
  { lending := r.1, asset := r.2.1.toOut, category := r.2.2 }

/-- `getOverdueLendings` (handlers/lendings): the joined rows with
status active and expected return date before today. -/
def getOverdueLendings (now : Timestamp) (db : DB) : List LendingWithDetails :=
  (((lendingDetailsJoin db).filter fun r =>
    r.1.status = LendingStatus.active ∧ r.1.expected_return_date < now).map
      toDetails)

end LendingQueries

section ReportingEngine

/-- Row of the first aggregate query of `generateCategorySummaryReport`:
per category, the asset count and the sum of `current_value` (a SQL
`sum` that is null when no non-null values are aggregated). -/
structure CategoryStatsRow where
  category_id : Nat
  category_name : String
  total_assets : Nat
  total_current_value : Option Int
deriving DecidableEq, Repr

/-- Row of the second aggregate query: per category, the lending count
and the count of active lendings, through the asset left join. -/
structure LendingStatsRow where
  category_id : Nat
  total_lendings : Nat
  active_lendings : Nat
deriving DecidableEq, Repr

/-- Row of the third aggregate query: per asset, its lending count. -/
structure AssetPopularityRow where
  category_id : Nat
  asset_id : Nat
  asset_name : String
  lending_count : Nat
deriving DecidableEq, Repr

structure CategorySummaryRow where
  category_id : Nat
  category_name : String
  total_assets : Nat
  total_value : ℚ
  total_lendings : Nat
  active_lendings : Nat
  utilization_rate : ℚ
  most_lent_asset : String
  most_lent_count : Nat
  least_lent_asset : String
  least_lent_count : Nat
deriving DecidableEq, Repr

def categoryStats (db : DB) : List CategoryStatsRow :=
  db.categories.map fun c =>
    let catAssets := db.assets.filter (fun a => a.category_id = c.id)
    let vals := catAssets.filterMap (·.current_value)
    { category_id := c.id
      category_name := c.name
      total_assets := catAssets.length
      total_current_value := if vals.isEmpty then none else some vals.sum }

def lendingStats (db : DB) : List LendingStatsRow :=
  db.categories.map fun c =>
    let ls := (db.assets.filter (fun a => a.category_id = c.id)).flatMap
      fun a => db.lendings.filter (fun l => l.asset_id = a.id)
    { category_id := c.id
      total_lendings := ls.length
      active_lendings :=
        (ls.filter (fun l => l.status = LendingStatus.active)).length }

def assetPopularity (db : DB) : List AssetPopularityRow :=
  db.assets.map fun a =>
    { category_id := a.category_id
      asset_id := a.id
      asset_name := a.name
      lending_count :=
        (db.lendings.filter (fun l => l.asset_id = a.id)).length }

/-- One row of the category summary, from the aggregate query results,
mirroring the `reportData` mapping of `generateCategorySummaryReport`:
the lending stats are recovered by `find` on category id; the per-asset
rows are sorted descending by lending count (a stable sort, as in
ECMAScript) with `[0]` as most lent and the last element as least lent;
a missing row yields the 'N/A' / zero placeholders, and
`active_lendings` comes back through `parseInt` of a count string that
is always non-empty hence truthy. -/
def categorySummaryRow (db : DB) (cs : CategoryStatsRow) : CategorySummaryRow :=
  let lending := (lendingStats db).find? (fun l => l.category_id = cs.category_id)
  let categoryAssets :=
    (assetPopularity db).filter (fun a => a.category_id = cs.category_id)
  let sortedAssets :=
    categoryAssets.mergeSort (fun a b => b.lending_count ≤ a.lending_count)
  let mostLent := sortedAssets.head?
  let leastLent := sortedAssets.getLast?
  let totalAssets := cs.total_assets
  let activeLendings : Nat := match lending with
    | some l => l.active_lendings
    | none => 0
  let utilizationRate : ℚ :=
    if totalAssets > 0 then (activeLendings : ℚ) / (totalAssets : ℚ) else 0
  { category_id := cs.category_id
    category_name := cs.category_name
    total_assets := totalAssets
    total_value := match cs.total_current_value with
      | some v => centsOut v
      | none => 0
    total_lendings := match lending with
      | some l => l.total_lendings
      | none => 0
    active_lendings := activeLendings
    utilization_rate := jsRound2 utilizationRate
    most_lent_asset := match mostLent with
      | some m => if m.asset_name = "" then "N/A" else m.asset_name
      | none => "N/A"
    most_lent_count := match mostLent with
      | some m => m.lending_count
      | none => 0
    least_lent_asset := match leastLent with
      | some m => if m.asset_name = "" then "N/A" else m.asset_name
      | none => "N/A"
    least_lent_count := match leastLent with
      | some m => m.lending_count
      | none => 0 }

/-- `generateCategorySummaryReport` (handlers/reports): the data rows of
the category summary report. -/
def generateCategorySummaryReport (db : DB) : List CategorySummaryRow :=
  (categoryStats db).map (categorySummaryRow db)

end ReportingEngine

section DemoData

/-- Staff user used by the concrete instantiations. -/
def demoUser : User :=
  { id := 7, username := "alice", email := "alice@example.com"
    password_hash := "x", role := .staff, created_at := 0, updated_at := 0 }

def demoCategory : Category :=
  { id := 1, name := "Electronics", description := none
    created_at := 0, updated_at := 0 }

def demoAssetLent : Asset :=
  { id := 1, name := "Laptop", description := none, category_id := 1
    serial_number := none, purchase_date := none, purchase_price := none
    current_value := none, status := .lent, location := none
    created_at := 0, updated_at := 0 }

/-- Store with a single already-lent asset. -/
def demoDB1 : DB :=
  { users := [demoUser], categories := [demoCategory]
    assets := [demoAssetLent], lendings := [] }

def demoLendInput : CreateLendingInput :=
  { asset_id := 1, borrower_name := "Jane", borrower_email := none
    borrower_phone := none, department := none, expected_return_date := 30
    notes := none, lent_by_user_id := 7 }

def demoAssetFree : Asset :=
  { id := 1, name := "Laptop", description := none, category_id := 1
    serial_number := none, purchase_date := none, purchase_price := none
    current_value := none, status := .available, location := none
    created_at := 0, updated_at := 0 }

/-- Store with a single available asset. -/
def demoDBFree : DB :=
  { users := [demoUser], categories := [demoCategory]
    assets := [demoAssetFree], lendings := [] }

/-- The lending row created by `createLending demoLendInput 10
demoDBFree`. -/
def demoLentRow : Lending :=
  { id := 1, asset_id := 1, borrower_name := "Jane", borrower_email := none
    borrower_phone := none, department := none, lent_date := 10
    expected_return_date := 30, actual_return_date := none, status := .active
    notes := none, lent_by_user_id := 7, returned_by_user_id := none
    created_at := 10, updated_at := 10 }

/-- The store after that successful `createLending`. -/
def demoDBAfterLend : DB :=
  { users := [demoUser], categories := [demoCategory]
    assets := [{ demoAssetFree with status := .lent, updated_at := 10 }]
    lendings := [demoLentRow] }

def demoReturnIn1 : ReturnAssetInput :=
  { lending_id := 1, returned_by_user_id := 7, return_notes := none
    asset_condition := none }

def demoReturnIn2 : ReturnAssetInput :=
  { lending_id := 1, returned_by_user_id := 7, return_notes := some "late"
    asset_condition := some .good }

/-- The lending row after the first successful return. -/
def demoReturnedRow : Lending :=
  { demoLentRow with
    actual_return_date := some 20, status := .returned
    returned_by_user_id := some 7, updated_at := 20 }

/-- The store after `returnAsset demoReturnIn1 20 demoDBAfterLend`. -/
def demoDBAfterReturn : DB :=
  { users := [demoUser], categories := [demoCategory]
    assets := [{ demoAssetFree with status := .available, updated_at := 20 }]
    lendings := [demoReturnedRow] }

def demoReturnEmptyNotes : ReturnAssetInput :=
  { lending_id := 1, returned_by_user_id := 7, return_notes := some ""
    asset_condition := none }

/-- The demo active lending carrying pre-existing notes. -/
def demoLentRowNotes : Lending := { demoLentRow with notes := some "old" }

def demoDBNotes : DB := { demoDBAfterLend with lendings := [demoLentRowNotes] }

/-- An asset administratively retired while its lending is active. -/
def demoAssetRetired : Asset :=
  { demoAssetFree with status := .retired, updated_at := 7 }

def demoDBRetired : DB :=
  { users := [demoUser], categories := [demoCategory]
    assets := [demoAssetRetired], lendings := [demoLentRow] }

/-- The store after `returnAsset demoReturnIn1 20 demoDBRetired`. -/
def demoDBRetiredAfter : DB :=
  { users := [demoUser], categories := [demoCategory]
    assets := [{ demoAssetRetired with status := .available, updated_at := 20 }]
    lendings := [demoReturnedRow] }

def demoReturnNotesIn : ReturnAssetInput :=
  { lending_id := 1, returned_by_user_id := 7, return_notes := some "cleaned"
    asset_condition := some .needs_maintenance }

/-- The lending row after `returnAsset demoReturnNotesIn 20 demoDBNotes`. -/
def demoReturnedRowNotes : Lending :=
  { demoLentRowNotes with
    actual_return_date := some 20, status := .returned
    returned_by_user_id := some 7, notes := some "cleaned", updated_at := 20 }

/-- The store after `returnAsset demoReturnNotesIn 20 demoDBNotes`. -/
def demoDBNotesAfter : DB :=
  { demoDBNotes with
    lendings := [demoReturnedRowNotes]
    assets := [{ demoAssetFree with status := .maintenance, updated_at := 20 }] }

def demoCatPatch : UpdateCategoryInput :=
  { id := 1, name := some "Gear", description := none }

def demoCategoryRenamed : Category := { demoCategory with name := "Gear" }

def demoDBRenamed : DB := { demoDB1 with categories := [demoCategoryRenamed] }

def demoReachUser : User :=
  ⟨1, "alice", "alice@example.com", "pw", .staff, 0, 0⟩

def demoReachDB1 : DB :=
  { users := [demoReachUser], categories := [], assets := [], lendings := [] }

def demoReachCat : Category := ⟨1, "Electronics", none, 1, 1⟩

def demoReachDB2 : DB := { demoReachDB1 with categories := [demoReachCat] }

def demoReachAsset : Asset :=
  ⟨1, "Laptop", none, 1, none, none, none, none, .available, none, 2, 2⟩

def demoReachDB3 : DB := { demoReachDB2 with assets := [demoReachAsset] }

def demoReachLend : Lending :=
  ⟨1, 1, "Jane", none, none, none, 3, 30, none, .active, none, 1, none, 3, 3⟩

def demoReachDB4 : DB :=
  { demoReachDB3 with
    assets := [{ demoReachAsset with status := .lent, updated_at := 3 }]
    lendings := [demoReachLend] }

def demoReachLendReturned : Lending :=
  { demoReachLend with
    actual_return_date := some 4, status := .returned
    returned_by_user_id := some 1, updated_at := 4 }

def demoReachDB5 : DB :=
  { demoReachDB4 with
    assets := [{ demoReachAsset with status := .damaged, updated_at := 4 }]
    lendings := [demoReachLendReturned] }

/-- Store for the reporting scenario: one category, four assets, two
active lendings and one returned lending. -/
def demoRepDB : DB :=
  { users := [demoUser]
    categories := [demoCategory]
    assets := [demoAssetFree, { demoAssetFree with id := 2 },
      { demoAssetFree with id := 3 }, { demoAssetFree with id := 4 }]
    lendings := [demoLentRow, { demoLentRow with id := 2, asset_id := 2 },
      { demoReturnedRow with id := 3, asset_id := 3 }] }

/-- Asset-creation input with two-decimal monetary amounts (1500.50 and
1200.00). -/
def demoPricedIn : CreateAssetInput :=
  { name := "Projector", description := none, category_id := 1
    serial_number := none, purchase_date := none
    purchase_price := some ((150050 : ℚ) / 100)
    current_value := some ((120000 : ℚ) / 100)
    status := .available, location := none }

/-- The stored row created by `createAsset demoPricedIn 5 demoDB1`. -/
def demoPricedAsset : Asset :=
  { id := 2, name := "Projector", description := none, category_id := 1
    serial_number := none, purchase_date := none
    purchase_price := moneyIn (some ((150050 : ℚ) / 100))
    current_value := moneyIn (some ((120000 : ℚ) / 100))
    status := .available, location := none, created_at := 5, updated_at := 5 }

def demoDBPriced : DB :=
  { demoDB1 with assets := [demoAssetLent, demoPricedAsset] }

/-- Asset-creation input whose price 0.005 has more than two decimals. -/
def demoTinyIn : CreateAssetInput :=
  { name := "Washer", description := none, category_id := 1
    serial_number := none, purchase_date := none
    purchase_price := some ((1 : ℚ) / 200)
    current_value := none
    status := .available, location := none }

/-- The stored row created by `createAsset demoTinyIn 5 demoDB1`. -/
def demoTinyAsset : Asset :=
  { id := 2, name := "Washer", description := none, category_id := 1
    serial_number := none, purchase_date := none
    purchase_price := moneyIn (some ((1 : ℚ) / 200))
    current_value := moneyIn none
    status := .available, location := none, created_at := 5, updated_at := 5 }

def demoDBTiny : DB :=
  { demoDB1 with assets := [demoAssetLent, demoTinyAsset] }

end DemoData

/-- States reachable from the empty store through the public mutating
operations; each constructor consumes the success of one handler call.
A failed call leaves the store unchanged in this embedding (every
handler throws before its first write on every failure path), so only
successes advance the state. -/
inductive Reachable : DB → Prop where
  | init : Reachable emptyDB
  | createUserStep {hash : String → String} {i : CreateUserInput}
      {now : Timestamp} {db : DB} {u : User} {db' : DB} :
      Reachable db → createUser hash i now db = .ok (u, db') → Reachable db'
  | createCategoryStep {i : CreateCategoryInput} {now : Timestamp} {db : DB}
      {c : Category} {db' : DB} :
      Reachable db → createCategory i now db = .ok (c, db') → Reachable db'
  | updateCategoryStep {i : UpdateCategoryInput} {db : DB} {c : Category}
      {db' : DB} :
      Reachable db → updateCategory i db = .ok (c, db') → Reachable db'
  | deleteCategoryStep {id : Nat} {db db' : DB} :
      Reachable db → deleteCategory id db = .ok db' → Reachable db'
  | createAssetStep {i : CreateAssetInput} {now : Timestamp} {db : DB}
      {a : AssetOut} {db' : DB} :
      Reachable db → createAsset i now db = .ok (a, db') → Reachable db'
  | updateAssetStep {i : UpdateAssetInput} {now : Timestamp} {db : DB}
      {a : AssetOut} {db' : DB} :
      Reachable db → updateAsset i now db = .ok (a, db') → Reachable db'
  | deleteAssetStep {id : Nat} {db db' : DB} :
      Reachable db → deleteAsset id db = .ok db' → Reachable db'
  | createLendingStep {i : CreateLendingInput} {now : Timestamp} {db : DB}
      {l : Lending} {db' : DB} :
      Reachable db → createLending i now db = .ok (l, db') → Reachable db'
  | returnAssetStep {i : ReturnAssetInput} {now : Timestamp} {db : DB}
      {l : Lending} {db' : DB} :
      Reachable db → returnAsset i now db = .ok (l, db') → Reachable db'
  | updateLendingStep {id : Nat} {p : UpdateLendingPatch} {now : Timestamp}
      {db : DB} {l : Lending} {db' : DB} :
      Reachable db → updateLending id p now db = .ok (l, db') → Reachable db'

/-- Number of assets stored under a category (the claim's "total asset
count"). -/
def totalAssetCount (db : DB) (cid : Nat) : Nat :=
  (db.assets.filter (fun a => a.category_id = cid)).length

/-- Number of active lendings whose asset belongs to a category (the
claim's "active lending count"). -/
def activeLendingCount (db : DB) (cid : Nat) : Nat :=
  db.lendings.countP (fun l => l.status = LendingStatus.active ∧
    db.assets.any (fun a => a.id = l.asset_id ∧ a.category_id = cid))

section Helpers

theorem ratFloor_eq_floor (q : ℚ) : ratFloor q = ⌊q⌋ := by
  rw [ratFloor, Rat.floor_def, Int.fdiv_eq_ediv _ (by positivity)]

theorem le_foldr_max {l : List Nat} {i : Nat} (h : i ∈ l) :
    i ≤ l.foldr max 0 := by
  induction l with
  | nil => cases h
  | cons b t ih =>
    rcases List.mem_cons.mp h with h | h
    · subst h; exact le_max_left _ _
    · exact (ih h).trans (le_max_right _ _)

theorem freshId_not_mem (ids : List Nat) : freshId ids ∉ ids := by
  intro hmem
  have := le_foldr_max hmem
  simp only [freshId] at this ⊢
  omega

/-- Lookup by id in a table with no duplicate ids finds exactly the
member row with that id. -/
theorem find?_id_eq_of_nodup {α : Type} (f : α → Nat) {l : List α} {a : α}
    (hn : (l.map f).Nodup) (ha : a ∈ l) :
    l.find? (fun x => f x = f a) = some a := by
  induction l with
  | nil => cases ha
  | cons b t ih =>
    rcases List.mem_cons.mp ha with h | h
    · subst h
      simp [List.find?_cons]
    · by_cases hba : f b = f a
      · exact absurd (hba ▸ List.mem_map_of_mem f h)
          (List.nodup_cons.mp hn).1
      · simp only [List.find?_cons, decide_eq_true_eq, hba, if_neg]
        simpa [hba] using ih (List.nodup_cons.mp hn).2 h

/-- A table with no duplicate ids has exactly one row with the id of
any member. -/
theorem countP_id_eq_one {α : Type} (f : α → Nat) {l : List α} {a : α}
    (hn : (l.map f).Nodup) (ha : a ∈ l) :
    l.countP (fun x => f x = f a) = 1 := by
  induction l with
  | nil => cases ha
  | cons b t ih =>
    rcases List.mem_cons.mp ha with h | h
    · subst h
      rw [List.countP_cons_of_pos _ _ (by simp)]
      have hzero : t.countP (fun x => f x = f a) = 0 :=
        List.countP_eq_zero.mpr fun x hx => by
          simp only [decide_eq_true_eq]
          intro hfx
          exact (List.nodup_cons.mp hn).1 (hfx ▸ List.mem_map_of_mem f hx)
      omega
    · by_cases hba : f b = f a
      · exact absurd (hba ▸ List.mem_map_of_mem f h)
          (List.nodup_cons.mp hn).1
      · rw [List.countP_cons_of_neg _ _ (by simpa using hba)]
        exact ih (List.nodup_cons.mp hn).2 h

end Helpers

/-- C1: creating a lending against an existing asset whose status is
not available fails with the availability Conflict; the source throws
before performing any insert or update on this path, which the
embedding reflects by returning only the error, so the store (in
particular the asset's status) is unchanged and no Lending or Asset row
is written. -/
theorem createLending_unavailable_conflict
    {db : DB} {a : Asset} (input : CreateLendingInput) (now : Timestamp)
    (hnodup : (db.assets.map (·.id)).Nodup)
    (ha : a ∈ db.assets) (hid : input.asset_id = a.id)
    (hstatus : a.status ≠ AssetStatus.available) :
    createLending input now db = .error DbError.assetNotAvailable ∧
    DbError.assetNotAvailable.kind = ErrKind.conflict ∧
    DbError.assetNotAvailable.message = "Asset is not available for lending" := by
  have hfind : db.assets.find? (fun x => x.id = input.asset_id) = some a := by
    rw [hid]
    exact find?_id_eq_of_nodup Asset.id hnodup ha
  refine ⟨?_, rfl, rfl⟩
  unfold createLending
  rw [hfind]
  simp [hstatus]

/-- Witness for C1 at a concrete store holding one lent asset. -/
theorem createLending_unavailable_conflict_witness :
    createLending demoLendInput 10 demoDB1 = .error DbError.assetNotAvailable ∧
    DbError.assetNotAvailable.kind = ErrKind.conflict ∧
    DbError.assetNotAvailable.message = "Asset is not available for lending" :=
  @createLending_unavailable_conflict demoDB1 demoAssetLent demoLendInput 10
    (by decide) (by decide) (by decide) (by decide)

/-- Successful `createLending` fully described: the availability and
user checks passed, the inserted row and its fresh id, the asset flip,
and the untouched tables. -/
theorem createLending_ok {input : CreateLendingInput} {now : Timestamp}
    {db : DB} {l : Lending} {db' : DB}
    (h : createLending input now db = .ok (l, db')) :
    (∃ a, db.assets.find? (fun x => x.id = input.asset_id) = some a ∧
      a.status = AssetStatus.available) ∧
    (db.users.find? (fun u => u.id = input.lent_by_user_id)).isSome ∧
    l.id = freshId (db.lendings.map (·.id)) ∧
    l.status = LendingStatus.active ∧
    l.actual_return_date = none ∧
    l.returned_by_user_id = none ∧
    l.lent_date = now ∧ l.created_at = now ∧ l.updated_at = now ∧
    l.asset_id = input.asset_id ∧
    db'.lendings = db.lendings ++ [l] ∧
    db'.users = db.users ∧
    db'.categories = db.categories ∧
    db'.assets = db.assets.map (fun a =>
      if a.id = input.asset_id then
        { a with status := AssetStatus.lent, updated_at := now }
      else a) := by
  unfold createLending at h
  split at h
  · cases h
  next asset hfind =>
    split at h
    · cases h
    next hstat =>
      split at h
      · cases h
      next u hu =>
        simp only [Except.ok.injEq, Prod.mk.injEq] at h
        obtain ⟨rfl, rfl⟩ := h
        rw [not_not] at hstat
        exact ⟨⟨asset, hfind, hstat⟩, by rw [hu]; rfl, rfl, rfl, rfl, rfl,
          rfl, rfl, rfl, rfl, rfl, rfl, rfl, rfl⟩

/-- C3: a successful `createLending` inserts exactly one Lending row —
with a fresh id, status active, no return date and no returning user —
and mutates exactly one Asset row (the one asset whose id matches, set
to lent with `updated_at` refreshed); every other asset row and the
whole User and Category tables are unchanged. -/
theorem createLending_success_frame
    {input : CreateLendingInput} {now : Timestamp} {db : DB} {l : Lending}
    {db' : DB}
    (hnodup : (db.assets.map (·.id)).Nodup)
    (h : createLending input now db = .ok (l, db')) :
    db'.lendings = db.lendings ++ [l] ∧
    l.id ∉ db.lendings.map (·.id) ∧
    l.status = LendingStatus.active ∧
    l.actual_return_date = none ∧
    l.returned_by_user_id = none ∧
    db.assets.countP (fun a => a.id = input.asset_id) = 1 ∧
    db'.assets = db.assets.map (fun a =>
      if a.id = input.asset_id then
        { a with status := AssetStatus.lent, updated_at := now }
      else a) ∧
    (∀ a ∈ db.assets, a.id ≠ input.asset_id → a ∈ db'.assets) ∧
    db'.users = db.users ∧ db'.categories = db.categories := by
  obtain ⟨⟨a, hfind, _⟩, _, hid, hstat, hard, hrb, _, _, _, _, hlend, husers,
    hcats, hassets⟩ := createLending_ok h
  have hamem : a ∈ db.assets := List.mem_of_find?_eq_some hfind
  have haid : a.id = input.asset_id := by
    simpa using List.find?_some hfind
  refine ⟨hlend, ?_, hstat, hard, hrb, ?_, hassets, ?_, husers, hcats⟩
  · rw [hid]; exact freshId_not_mem _
  · rw [← haid]
    exact countP_id_eq_one Asset.id hnodup hamem
  · intro x hx hne
    rw [hassets]
    exact List.mem_map.mpr ⟨x, hx, by simp [hne]⟩

/-- Witness for C3: the concrete successful lending creation out of
`demoDBFree`. -/
theorem createLending_success_frame_witness :
    demoDBAfterLend.lendings = demoDBFree.lendings ++ [demoLentRow] ∧
    demoLentRow.id ∉ demoDBFree.lendings.map (·.id) ∧
    demoLentRow.status = LendingStatus.active ∧
    demoLentRow.actual_return_date = none ∧
    demoLentRow.returned_by_user_id = none ∧
    demoDBFree.assets.countP (fun a => a.id = demoLendInput.asset_id) = 1 ∧
    demoDBAfterLend.assets = demoDBFree.assets.map (fun a =>
      if a.id = demoLendInput.asset_id then
        { a with status := AssetStatus.lent, updated_at := 10 }
      else a) ∧
    (∀ a ∈ demoDBFree.assets, a.id ≠ demoLendInput.asset_id →
      a ∈ demoDBAfterLend.assets) ∧
    demoDBAfterLend.users = demoDBFree.users ∧
    demoDBAfterLend.categories = demoDBFree.categories :=
  createLending_success_frame (by decide) (by decide)

/-- Successful `returnAsset` fully described: the found active lending,
the user check, the written lending row, the asset condition routing,
and the untouched tables. -/
theorem returnAsset_ok {input : ReturnAssetInput} {now : Timestamp}
    {db : DB} {l' : Lending} {db' : DB}
    (h : returnAsset input now db = .ok (l', db')) :
    ∃ l0, db.lendings.find? (fun l => l.id = input.lending_id) = some l0 ∧
      l0.status = LendingStatus.active ∧
      (db.users.find? (fun u => u.id = input.returned_by_user_id)).isSome ∧
      l' = { l0 with
        actual_return_date := some now
        status := LendingStatus.returned
        returned_by_user_id := some input.returned_by_user_id
        notes := returnNotes input.return_notes l0.notes
        updated_at := now } ∧
      db'.lendings = db.lendings.map (fun l =>
        if l.id = input.lending_id then
          { l with
            actual_return_date := some now
            status := LendingStatus.returned
            returned_by_user_id := some input.returned_by_user_id
            notes := returnNotes input.return_notes l0.notes
            updated_at := now }
        else l) ∧
      db'.assets = db.assets.map (fun a =>
        if a.id = l0.asset_id then
          { a with status := conditionToStatus input.asset_condition
                   updated_at := now }
        else a) ∧
      db'.users = db.users ∧ db'.categories = db.categories := by
  unfold returnAsset at h
  split at h
  · cases h
  next l0 hfind =>
    split at h
    · cases h
    next hstat =>
      split at h
      · cases h
      next u hu =>
        simp only [Except.ok.injEq, Prod.mk.injEq] at h
        obtain ⟨rfl, rfl⟩ := h
        rw [not_not] at hstat
        exact ⟨l0, hfind, hstat, by rw [hu]; rfl, rfl, rfl, rfl, rfl, rfl⟩

/-- Lookup by id commutes with an id-preserving row update. -/
theorem find?_map_of_id_preserved {α : Type} (g : α → Nat) (f : α → α)
    (hf : ∀ x, g (f x) = g x) (l : List α) (i : Nat) :
    (l.map f).find? (fun x => g x = i) = (l.find? (fun x => g x = i)).map f := by
  rw [List.find?_map]
  have hp : ((fun x => decide (g x = i)) ∘ f) = fun x => decide (g x = i) := by
    funext x
    simp [Function.comp, hf]
  rw [hp]

/-- C2: after a successful `returnAsset`, a second `returnAsset` on the
same lending id — whatever its other fields and whenever it runs — fails
with the not-active Conflict; the source throws before any write on
this path, which the embedding reflects by returning only the error, so
the second call performs zero writes and the asset status is unchanged
from after the first call. -/
theorem returnAsset_second_call_conflict
    {in1 in2 : ReturnAssetInput} {t1 t2 : Timestamp} {db db1 : DB}
    {l' : Lending}
    (h1 : returnAsset in1 t1 db = .ok (l', db1))
    (hid : in2.lending_id = in1.lending_id) :
    returnAsset in2 t2 db1 = .error DbError.lendingNotActive ∧
    DbError.lendingNotActive.kind = ErrKind.conflict := by
  obtain ⟨l0, hfind, hstat, hu, hl', hlend, hassets, husers, hcats⟩ :=
    returnAsset_ok h1
  have hl0id : l0.id = in1.lending_id := by simpa using List.find?_some hfind
  have hfind1 : db1.lendings.find? (fun l => l.id = in2.lending_id) =
      some { l0 with
        actual_return_date := some t1
        status := LendingStatus.returned
        returned_by_user_id := some in1.returned_by_user_id
        notes := returnNotes in1.return_notes l0.notes
        updated_at := t1 } := by
    rw [hlend, hid,
      find?_map_of_id_preserved Lending.id _ (fun x => by split <;> rfl),
      hfind]
    simp [hl0id]
  refine ⟨?_, rfl⟩
  unfold returnAsset
  rw [hfind1]
  simp

/-- Witness for C2: the concrete re-return of the already returned
demo lending. -/
theorem returnAsset_second_call_conflict_witness :
    returnAsset demoReturnIn2 25 demoDBAfterReturn =
      .error DbError.lendingNotActive ∧
    DbError.lendingNotActive.kind = ErrKind.conflict :=
  @returnAsset_second_call_conflict demoReturnIn1 demoReturnIn2 20 25
    demoDBAfterLend demoDBAfterReturn demoReturnedRow (by decide) (by decide)

/-- C4 counterexample: `return_notes` is provided (the empty string),
the return succeeds, yet the stored notes remain the old notes rather
than the provided value, because the source computes
`input.return_notes || lending[0].notes` and the empty string is falsy. -/
theorem returnAsset_notes_claim_counterexample :
    demoReturnEmptyNotes.return_notes = some "" ∧
    (returnAsset demoReturnEmptyNotes 20 demoDBNotes).isOk = true ∧
    (returnAsset demoReturnEmptyNotes 20 demoDBNotes).toOption.map
      (fun p => p.1.notes) = some (some "old") ∧
    some "old" ≠ demoReturnEmptyNotes.return_notes := by decide

/-- C4 amended: a successful `returnAsset` on an active lending sets
status returned, `actual_return_date = now`, the returning user id, and
`updated_at = now`; notes become `input.return_notes` when that is
provided and non-empty, and stay unchanged otherwise (in particular
when `return_notes` is absent); and the asset's status is set from
`asset_condition`: damaged to damaged, needs_maintenance to
maintenance, good or omitted to available, with `updated_at`
refreshed. -/
theorem returnAsset_success_fields
    {input : ReturnAssetInput} {now : Timestamp} {db : DB} {l' : Lending}
    {db' : DB}
    (h : returnAsset input now db = .ok (l', db')) :
    ∃ l0, db.lendings.find? (fun l => l.id = input.lending_id) = some l0 ∧
      l0.status = LendingStatus.active ∧
      (db.users.find? (fun u => u.id = input.returned_by_user_id)).isSome ∧
      l'.status = LendingStatus.returned ∧
      l'.actual_return_date = some now ∧
      l'.returned_by_user_id = some input.returned_by_user_id ∧
      l'.updated_at = now ∧
      (∀ s, input.return_notes = some s → s ≠ "" → l'.notes = some s) ∧
      (input.return_notes = none → l'.notes = l0.notes) ∧
      (input.return_notes = some "" → l'.notes = l0.notes) ∧
      db'.lendings = db.lendings.map (fun l =>
        if l.id = input.lending_id then
          { l with
            actual_return_date := some now
            status := LendingStatus.returned
            returned_by_user_id := some input.returned_by_user_id
            notes := returnNotes input.return_notes l0.notes
            updated_at := now }
        else l) ∧
      db'.assets = db.assets.map (fun a =>
        if a.id = l0.asset_id then
          { a with
            status := match input.asset_condition with
              | some .damaged => AssetStatus.damaged
              | some .needs_maintenance => AssetStatus.maintenance
              | _ => AssetStatus.available
            updated_at := now }
        else a) ∧
      db'.users = db.users ∧ db'.categories = db.categories := by
  obtain ⟨l0, hfind, hstat, hu, hl', hlend, hassets, husers, hcats⟩ :=
    returnAsset_ok h
  subst hl'
  refine ⟨l0, hfind, hstat, hu, rfl, rfl, rfl, rfl, ?_, ?_, ?_, hlend, ?_,
    husers, hcats⟩
  · intro s hs hne
    simp [returnNotes, hs, hne]
  · intro hs
    simp [returnNotes, hs]
  · intro hs
    simp [returnNotes, hs]
  · rw [hassets]
    rfl

/-- Witness for the amended C4: a concrete return with non-empty notes
and a needs_maintenance condition. -/
theorem returnAsset_success_fields_witness :
    ∃ l0, demoDBNotes.lendings.find?
        (fun l => l.id = demoReturnNotesIn.lending_id) = some l0 ∧
      l0.status = LendingStatus.active ∧
      (demoDBNotes.users.find?
        (fun u => u.id = demoReturnNotesIn.returned_by_user_id)).isSome ∧
      demoReturnedRowNotes.status = LendingStatus.returned ∧
      demoReturnedRowNotes.actual_return_date = some 20 ∧
      demoReturnedRowNotes.returned_by_user_id =
        some demoReturnNotesIn.returned_by_user_id ∧
      demoReturnedRowNotes.updated_at = 20 ∧
      (∀ s, demoReturnNotesIn.return_notes = some s → s ≠ "" →
        demoReturnedRowNotes.notes = some s) ∧
      (demoReturnNotesIn.return_notes = none →
        demoReturnedRowNotes.notes = l0.notes) ∧
      (demoReturnNotesIn.return_notes = some "" →
        demoReturnedRowNotes.notes = l0.notes) ∧
      demoDBNotesAfter.lendings = demoDBNotes.lendings.map (fun l =>
        if l.id = demoReturnNotesIn.lending_id then
          { l with
            actual_return_date := some 20
            status := LendingStatus.returned
            returned_by_user_id := some demoReturnNotesIn.returned_by_user_id
            notes := returnNotes demoReturnNotesIn.return_notes l0.notes
            updated_at := 20 }
        else l) ∧
      demoDBNotesAfter.assets = demoDBNotes.assets.map (fun a =>
        if a.id = l0.asset_id then
          { a with
            status := match demoReturnNotesIn.asset_condition with
              | some .damaged => AssetStatus.damaged
              | some .needs_maintenance => AssetStatus.maintenance
              | _ => AssetStatus.available
            updated_at := 20 }
        else a) ∧
      demoDBNotesAfter.users = demoDBNotes.users ∧
      demoDBNotesAfter.categories = demoDBNotes.categories :=
  returnAsset_success_fields (by decide)

/-- C10: a successful `returnAsset` writes the asset status purely as a
function of the `asset_condition` input — the hypotheses place no
constraint on the asset's current status, so an asset administratively
moved to retired or maintenance during the loan is overwritten, and in
particular becomes available when the condition is good or omitted. -/
theorem returnAsset_overwrites_asset_status
    {input : ReturnAssetInput} {now : Timestamp} {db : DB} {l' : Lending}
    {db' : DB} {l0 : Lending} {a : Asset}
    (h : returnAsset input now db = .ok (l', db'))
    (hfind : db.lendings.find? (fun l => l.id = input.lending_id) = some l0)
    (ha : db.assets.find? (fun x => x.id = l0.asset_id) = some a) :
    (db'.assets.find? (fun x => x.id = l0.asset_id)).map (·.status) =
      some (conditionToStatus input.asset_condition) ∧
    ((input.asset_condition = none ∨ input.asset_condition = some .good) →
      (db'.assets.find? (fun x => x.id = l0.asset_id)).map (·.status) =
        some AssetStatus.available) := by
  obtain ⟨l1, hfind1, hstat1, hu, hl', hlend, hassets, husers, hcats⟩ :=
    returnAsset_ok h
  rw [hfind1] at hfind
  have heq : l1 = l0 := by injection hfind
  rw [heq] at hassets
  have haid : a.id = l0.asset_id := by simpa using List.find?_some ha
  have hmain : (db'.assets.find? (fun x => x.id = l0.asset_id)).map (·.status) =
      some (conditionToStatus input.asset_condition) := by
    rw [hassets,
      find?_map_of_id_preserved Asset.id _ (fun x => by split <;> rfl), ha]
    simp [haid]
  refine ⟨hmain, fun hc => ?_⟩
  rw [hmain]
  rcases hc with hc | hc <;> simp [hc, conditionToStatus]

/-- Witness for C10: returning the demo lending whose asset was
administratively retired during the loan, with an omitted condition,
leaves the asset available. -/
theorem returnAsset_overwrites_asset_status_witness :
    (demoDBRetiredAfter.assets.find?
        (fun x => x.id = demoLentRow.asset_id)).map (·.status) =
      some (conditionToStatus demoReturnIn1.asset_condition) ∧
    ((demoReturnIn1.asset_condition = none ∨
        demoReturnIn1.asset_condition = some .good) →
      (demoDBRetiredAfter.assets.find?
          (fun x => x.id = demoLentRow.asset_id)).map (·.status) =
        some AssetStatus.available) :=
  @returnAsset_overwrites_asset_status demoReturnIn1 20 demoDBRetired
    demoReturnedRow demoDBRetiredAfter demoLentRow demoAssetRetired
    (by decide) (by decide) (by decide)

/-- C6: `deleteCategory` fails NotFound when the id is absent; when the
category exists and N ≥ 1 assets reference it, it fails with a Conflict
whose message carries the exact count N (the source throws before the
delete statement, so the category row survives — the embedding returns
only the error); and when the category exists with zero referencing
assets, the deletion succeeds and removes exactly the rows with that
id. -/
theorem deleteCategory_spec (id : Nat) (db : DB) :
    ((∀ c ∈ db.categories, c.id ≠ id) →
      deleteCategory id db = .error (.categoryNotFoundId id) ∧
      (DbError.categoryNotFoundId id).kind = ErrKind.notFound) ∧
    (∀ c, getCategoryById id db = some c →
      ∀ n, db.assets.countP (fun a => a.category_id = id) = n → 0 < n →
        deleteCategory id db = .error (.categoryHasAssets n) ∧
        (DbError.categoryHasAssets n).kind = ErrKind.conflict ∧
        (DbError.categoryHasAssets n).message =
          "Cannot delete category with " ++ toString n ++
            " associated assets") ∧
    (∀ c, getCategoryById id db = some c →
      db.assets.countP (fun a => a.category_id = id) = 0 →
        deleteCategory id db =
          .ok { db with
            categories := db.categories.filter (fun c => c.id ≠ id) }) := by
  have hlen : (db.assets.filter (fun a => a.category_id = id)).length =
      db.assets.countP (fun a => a.category_id = id) :=
    (List.countP_eq_length_filter _ _).symm
  refine ⟨fun habs => ?_, fun c hc n hn hpos => ?_, fun c hc hzero => ?_⟩
  · have hnone : getCategoryById id db = none := by
      unfold getCategoryById
      exact List.find?_eq_none.mpr fun c hcmem => by
        simpa using habs c hcmem
    unfold deleteCategory
    rw [hnone]
    exact ⟨rfl, rfl⟩
  · unfold deleteCategory
    rw [hc]
    have : (db.assets.filter (fun a => a.category_id = id)).length = n := by
      omega
    simp only [this]
    rw [if_pos hpos]
    exact ⟨rfl, rfl, rfl⟩
  · unfold deleteCategory
    rw [hc]
    have : (db.assets.filter (fun a => a.category_id = id)).length = 0 := by
      omega
    simp only [this]
    rfl

/-- Witness for C6 at the concrete store: category 1 exists and exactly
one asset references it, so deletion fails with the count 1 in the
Conflict message. -/
theorem deleteCategory_spec_witness :
    deleteCategory 1 demoDB1 = .error (.categoryHasAssets 1) ∧
    (DbError.categoryHasAssets 1).kind = ErrKind.conflict ∧
    (DbError.categoryHasAssets 1).message =
      "Cannot delete category with " ++ toString 1 ++ " associated assets" :=
  (deleteCategory_spec 1 demoDB1).2.1 demoCategory (by decide) 1
    (by decide) (by decide)

/-- C9: for an existing category and a non-empty patch, `updateCategory`
writes only the name and description fields — the returned row keeps the
previous `updated_at` (and `created_at` and id), every stored category
row keeps its timestamps, and no other table is touched — whereas
`updateAsset` and `updateLending` always set `updated_at` to the call
instant. -/
theorem updateCategory_never_bumps_updated_at
    {input : UpdateCategoryInput} {db : DB} {c0 c' : Category} {db' : DB}
    (hfind : getCategoryById input.id db = some c0)
    (hpatch : ¬ (input.name = none ∧ input.description = none))
    (h : updateCategory input db = .ok (c', db')) :
    c' = { c0 with
      name := input.name.getD c0.name
      description := input.description.getD c0.description } ∧
    c'.updated_at = c0.updated_at ∧ c'.created_at = c0.created_at ∧
    c'.id = c0.id ∧
    (∀ x ∈ db'.categories, ∃ y ∈ db.categories,
      x.id = y.id ∧ x.updated_at = y.updated_at ∧
      x.created_at = y.created_at) ∧
    db'.users = db.users ∧ db'.assets = db.assets ∧
    db'.lendings = db.lendings ∧
    (∀ (ai : UpdateAssetInput) (t : Timestamp) (adb : DB) (ao : AssetOut)
      (adb' : DB), updateAsset ai t adb = .ok (ao, adb') →
        ao.updated_at = t) ∧
    (∀ (lid : Nat) (p : UpdateLendingPatch) (t : Timestamp) (ldb : DB)
      (lr : Lending) (ldb' : DB),
        updateLending lid p t ldb = .ok (lr, ldb') → lr.updated_at = t) := by
  unfold updateCategory at h
  split at h
  · cases h
  next existing hex =>
    rw [hfind] at hex
    obtain rfl : existing = c0 := by injection hex with hx; exact hx.symm
    rw [if_neg hpatch] at h
    simp only [Except.ok.injEq, Prod.mk.injEq] at h
    obtain ⟨rfl, rfl⟩ := h
    refine ⟨rfl, rfl, rfl, rfl, ?_, rfl, rfl, rfl, ?_, ?_⟩
    · intro x hx
      simp only [List.mem_map] at hx
      obtain ⟨y, hy, rfl⟩ := hx
      refine ⟨y, hy, ?_⟩
      split <;> simp
    · intro ai t adb ao adb' hup
      unfold updateAsset at hup
      split at hup
      · cases hup
      next a0 hfa =>
        split at hup
        next cid hcid =>
          split at hup
          · cases hup
          · simp only [Except.ok.injEq, Prod.mk.injEq] at hup
            obtain ⟨rfl, rfl⟩ := hup
            rfl
        next hcid =>
          simp only [Except.ok.injEq, Prod.mk.injEq] at hup
          obtain ⟨rfl, rfl⟩ := hup
          rfl
    · intro lid p t ldb lr ldb' hup
      unfold updateLending at hup
      split at hup
      · cases hup
      next l0 hfl =>
        simp only [Except.ok.injEq, Prod.mk.injEq] at hup
        obtain ⟨rfl, rfl⟩ := hup
        rfl

/-- Witness for C9: renaming the demo category leaves its `updated_at`
at its creation-time value. -/
theorem updateCategory_never_bumps_updated_at_witness :
    demoCategoryRenamed = { demoCategory with
      name := demoCatPatch.name.getD demoCategory.name
      description := demoCatPatch.description.getD demoCategory.description } ∧
    demoCategoryRenamed.updated_at = demoCategory.updated_at ∧
    demoCategoryRenamed.created_at = demoCategory.created_at ∧
    demoCategoryRenamed.id = demoCategory.id ∧
    (∀ x ∈ demoDBRenamed.categories, ∃ y ∈ demoDB1.categories,
      x.id = y.id ∧ x.updated_at = y.updated_at ∧
      x.created_at = y.created_at) ∧
    demoDBRenamed.users = demoDB1.users ∧
    demoDBRenamed.assets = demoDB1.assets ∧
    demoDBRenamed.lendings = demoDB1.lendings ∧
    (∀ (ai : UpdateAssetInput) (t : Timestamp) (adb : DB) (ao : AssetOut)
      (adb' : DB), updateAsset ai t adb = .ok (ao, adb') →
        ao.updated_at = t) ∧
    (∀ (lid : Nat) (p : UpdateLendingPatch) (t : Timestamp) (ldb : DB)
      (lr : Lending) (ldb' : DB),
        updateLending lid p t ldb = .ok (lr, ldb') → lr.updated_at = t) :=
  @updateCategory_never_bumps_updated_at demoCatPatch demoDB1 demoCategory
    demoCategoryRenamed demoDBRenamed (by decide) (by decide) (by decide)

/-- `createUser` leaves the lendings table unchanged. -/
theorem createUser_lendings {hash : String → String} {i : CreateUserInput}
    {now : Timestamp} {db : DB} {u : User} {db' : DB}
    (h : createUser hash i now db = .ok (u, db')) :
    db'.lendings = db.lendings := by
  unfold createUser at h
  split at h
  · cases h
  · split at h
    · cases h
    · simp only [Except.ok.injEq, Prod.mk.injEq] at h
      obtain ⟨rfl, rfl⟩ := h
      rfl

/-- `createCategory` leaves the lendings table unchanged. -/
theorem createCategory_lendings {i : CreateCategoryInput} {now : Timestamp}
    {db : DB} {c : Category} {db' : DB}
    (h : createCategory i now db = .ok (c, db')) :
    db'.lendings = db.lendings := by
  unfold createCategory at h
  simp only [Except.ok.injEq, Prod.mk.injEq] at h
  obtain ⟨rfl, rfl⟩ := h
  rfl

/-- `updateCategory` leaves the lendings table unchanged. -/
theorem updateCategory_lendings {i : UpdateCategoryInput} {db : DB}
    {c : Category} {db' : DB} (h : updateCategory i db = .ok (c, db')) :
    db'.lendings = db.lendings := by
  unfold updateCategory at h
  split at h
  · cases h
  · split at h
    · simp only [Except.ok.injEq, Prod.mk.injEq] at h
      obtain ⟨rfl, rfl⟩ := h
      rfl
    · simp only [Except.ok.injEq, Prod.mk.injEq] at h
      obtain ⟨rfl, rfl⟩ := h
      rfl

/-- `deleteCategory` leaves the lendings table unchanged. -/
theorem deleteCategory_lendings {id : Nat} {db db' : DB}
    (h : deleteCategory id db = .ok db') : db'.lendings = db.lendings := by
  unfold deleteCategory at h
  split at h
  · cases h
  · simp only [] at h
    split at h
    · cases h
    · simp only [Except.ok.injEq] at h
      obtain rfl := h
      rfl

/-- `createAsset` leaves the lendings table unchanged. -/
theorem createAsset_lendings {i : CreateAssetInput} {now : Timestamp}
    {db : DB} {a : AssetOut} {db' : DB}
    (h : createAsset i now db = .ok (a, db')) :
    db'.lendings = db.lendings := by
  unfold createAsset at h
  split at h
  · cases h
  · simp only [Except.ok.injEq, Prod.mk.injEq] at h
    obtain ⟨rfl, rfl⟩ := h
    rfl

/-- `updateAsset` leaves the lendings table unchanged. -/
theorem updateAsset_lendings {i : UpdateAssetInput} {now : Timestamp}
    {db : DB} {a : AssetOut} {db' : DB}
    (h : updateAsset i now db = .ok (a, db')) :
    db'.lendings = db.lendings := by
  unfold updateAsset at h
  split at h
  · cases h
  · split at h
    next cid hcid =>
      split at h
      · cases h
      · simp only [Except.ok.injEq, Prod.mk.injEq] at h
        obtain ⟨rfl, rfl⟩ := h
        rfl
    next hcid =>
      simp only [Except.ok.injEq, Prod.mk.injEq] at h
      obtain ⟨rfl, rfl⟩ := h
      rfl

/-- `deleteAsset` leaves the lendings table unchanged. -/
theorem deleteAsset_lendings {id : Nat} {db db' : DB}
    (h : deleteAsset id db = .ok db') : db'.lendings = db.lendings := by
  unfold deleteAsset at h
  split at h
  · cases h
  · split at h
    · cases h
    · simp only [Except.ok.injEq] at h
      obtain rfl := h
      rfl

/-- `updateLending` rewrites descriptive fields only: every row of the
updated lendings table keeps its previous status. -/
theorem updateLending_preserves_status {id : Nat} {p : UpdateLendingPatch}
    {now : Timestamp} {db : DB} {l' : Lending} {db' : DB}
    (h : updateLending id p now db = .ok (l', db')) :
    ∀ x ∈ db'.lendings, ∃ y ∈ db.lendings, x.status = y.status := by
  unfold updateLending at h
  split at h
  · cases h
  next l0 hfl =>
    simp only [Except.ok.injEq, Prod.mk.injEq] at h
    obtain ⟨rfl, rfl⟩ := h
    intro x hx
    simp only [List.mem_map] at hx
    obtain ⟨y, hy, rfl⟩ := hx
    exact ⟨y, hy, by split <;> rfl⟩

/-- C5: in every state reachable through the public operations, every
stored Lending status is active or returned — the stored value overdue
is never written by any operation — and the overdue view is a read-time
predicate: each row it returns has status active and an expected return
date before the query instant. -/
theorem reachable_lending_status_invariant {db : DB} (h : Reachable db) :
    (∀ l ∈ db.lendings,
      l.status = LendingStatus.active ∨ l.status = LendingStatus.returned) ∧
    (∀ l ∈ db.lendings, l.status ≠ LendingStatus.overdue) ∧
    (∀ now : Timestamp, ∀ r ∈ getOverdueLendings now db,
      r.lending.status = LendingStatus.active ∧
      r.lending.expected_return_date < now) := by
  have hmain : ∀ l ∈ db.lendings,
      l.status = LendingStatus.active ∨ l.status = LendingStatus.returned := by
    induction h with
    | init => intro l hl; cases hl
    | createUserStep _ hstep ih =>
      rw [createUser_lendings hstep]; exact ih
    | createCategoryStep _ hstep ih =>
      rw [createCategory_lendings hstep]; exact ih
    | updateCategoryStep _ hstep ih =>
      rw [updateCategory_lendings hstep]; exact ih
    | deleteCategoryStep _ hstep ih =>
      rw [deleteCategory_lendings hstep]; exact ih
    | createAssetStep _ hstep ih =>
      rw [createAsset_lendings hstep]; exact ih
    | updateAssetStep _ hstep ih =>
      rw [updateAsset_lendings hstep]; exact ih
    | deleteAssetStep _ hstep ih =>
      rw [deleteAsset_lendings hstep]; exact ih
    | createLendingStep _ hstep ih =>
      obtain ⟨_, _, _, hstat, _, _, _, _, _, _, hlend, _, _, _⟩ :=
        createLending_ok hstep
      rw [hlend]
      intro l hl
      rcases List.mem_append.mp hl with hl | hl
      · exact ih l hl
      · left
        simp only [List.mem_singleton] at hl
        rw [hl, hstat]
    | returnAssetStep _ hstep ih =>
      obtain ⟨l0, _, _, _, _, hlend, _, _, _⟩ := returnAsset_ok hstep
      rw [hlend]
      intro l hl
      simp only [List.mem_map] at hl
      obtain ⟨y, hy, rfl⟩ := hl
      split
      · right
        rfl
      · exact ih y hy
    | updateLendingStep _ hstep ih =>
      intro l hl
      obtain ⟨y, hy, hstat⟩ := updateLending_preserves_status hstep l hl
      rw [hstat]
      exact ih y hy
  refine ⟨hmain, fun l hl => ?_, fun now r hr => ?_⟩
  · rcases hmain l hl with hs | hs <;> rw [hs] <;> intro hx <;> cases hx
  · unfold getOverdueLendings at hr
    simp only [List.mem_map, List.mem_filter] at hr
    obtain ⟨t, ⟨htmem, htcond⟩, rfl⟩ := hr
    simp only [decide_eq_true_eq, Bool.and_eq_true] at htcond
    exact ⟨by simpa using htcond.1, by simpa using htcond.2⟩

/-- Witness for C5 at the final state of a concrete five-step run:
create a user, a category and an asset, lend the asset, return it
damaged. -/
theorem reachable_lending_status_invariant_witness :
    (∀ l ∈ demoReachDB5.lendings,
      l.status = LendingStatus.active ∨ l.status = LendingStatus.returned) ∧
    (∀ l ∈ demoReachDB5.lendings, l.status ≠ LendingStatus.overdue) ∧
    (∀ now : Timestamp, ∀ r ∈ getOverdueLendings now demoReachDB5,
      r.lending.status = LendingStatus.active ∧
      r.lending.expected_return_date < now) :=
  reachable_lending_status_invariant
    (Reachable.returnAssetStep
      (Reachable.createLendingStep
        (Reachable.createAssetStep
          (Reachable.createCategoryStep
            (Reachable.createUserStep Reachable.init
              (by decide :
                createUser (fun s => s)
                  ⟨"alice", "alice@example.com", "pw", .staff⟩ 0 emptyDB =
                  Except.ok (demoReachUser, demoReachDB1)))
            (by decide :
              createCategory ⟨"Electronics", none⟩ 1 demoReachDB1 =
                Except.ok (demoReachCat, demoReachDB2)))
          (by decide :
            createAsset
              ⟨"Laptop", none, 1, none, none, none, none, .available, none⟩
              2 demoReachDB2 =
              Except.ok (demoReachAsset.toOut, demoReachDB3)))
        (by decide :
          createLending ⟨1, "Jane", none, none, none, 30, none, 1⟩ 3
            demoReachDB3 = Except.ok (demoReachLend, demoReachDB4)))
      (by decide :
        returnAsset ⟨1, 1, none, some .damaged⟩ 4 demoReachDB4 =
          Except.ok (demoReachLendReturned, demoReachDB5)))

/-- Pointwise-equal Boolean predicates count the same. -/
theorem countP_congr' {α : Type} {p q : α → Bool} {l : List α}
    (h : ∀ x ∈ l, p x = q x) : l.countP p = l.countP q := by
  induction l with
  | nil => rfl
  | cons a t ih =>
    rw [List.countP_cons, List.countP_cons, h a (List.mem_cons_self a t),
      ih fun x hx => h x (List.mem_cons_of_mem a hx)]

/-- Counting a disjunction of pointwise-disjoint predicates splits. -/
theorem countP_or_disjoint {α : Type} (p q : α → Bool) (l : List α)
    (h : ∀ x ∈ l, ¬(p x = true ∧ q x = true)) :
    l.countP (fun x => p x || q x) = l.countP p + l.countP q := by
  induction l with
  | nil => rfl
  | cons a t ih =>
    have ha := h a (List.mem_cons_self a t)
    have iht := ih fun x hx => h x (List.mem_cons_of_mem a hx)
    rw [List.countP_cons, List.countP_cons, List.countP_cons, iht]
    cases hpa : p a with
    | true =>
      cases hqa : q a with
      | true => exact absurd ⟨hpa, hqa⟩ ha
      | false => simp [hpa, hqa]; omega
    | false =>
      cases hqa : q a with
      | true => simp [hpa, hqa]; omega
      | false => simp [hpa, hqa]

/-- The active-lending count computed by the report's join pipeline
(category to assets to lendings) equals the direct count of active
lendings whose asset belongs to the category, when asset ids are
unique. -/
theorem join_active_count (A : List Asset) (L : List Lending) (cid : Nat)
    (hn : (A.map (·.id)).Nodup) :
    (((A.filter (fun a => a.category_id = cid)).flatMap
        (fun a => L.filter (fun l => l.asset_id = a.id))).filter
          (fun l => l.status = LendingStatus.active)).length =
    L.countP (fun l => l.status = LendingStatus.active ∧
      A.any (fun a => a.id = l.asset_id ∧ a.category_id = cid)) := by
  rw [← List.countP_eq_length_filter]
  induction A with
  | nil => simp
  | cons a A' ih =>
    have hnotin : a.id ∉ A'.map (·.id) := (List.nodup_cons.mp hn).1
    have iht := ih (List.nodup_cons.mp hn).2
    by_cases hcat : a.category_id = cid
    · rw [List.filter_cons_of_pos (by simpa using hcat), List.flatMap_cons,
        List.countP_append, iht, List.countP_filter]
      have hsplit : ∀ l ∈ L,
          (decide (l.status = LendingStatus.active ∧
            (a :: A').any (fun x => x.id = l.asset_id ∧
              x.category_id = cid))) =
          ((decide (l.status = LendingStatus.active) &&
              decide (l.asset_id = a.id)) ||
            decide (l.status = LendingStatus.active ∧
              A'.any (fun x => x.id = l.asset_id ∧ x.category_id = cid))) := by
        intro l _
        have hb : ∀ (x y : Bool), (x = true ↔ y = true) → x = y :=
          fun x y hxy => by cases x <;> cases y <;> simp_all
        apply hb
        simp only [List.any_cons, decide_eq_true_eq, Bool.or_eq_true,
          Bool.and_eq_true, Bool.or_eq_true]
        constructor
        · rintro ⟨hs, hone | hrest⟩
          · exact Or.inl ⟨hs, hone.1.symm⟩
          · exact Or.inr ⟨hs, hrest⟩
        · rintro (⟨hs, hm⟩ | ⟨hs, hrest⟩)
          · exact ⟨hs, Or.inl ⟨hm.symm, hcat⟩⟩
          · exact ⟨hs, Or.inr hrest⟩
      rw [countP_congr' hsplit, countP_or_disjoint]
      intro l _
      rintro ⟨h1, h2⟩
      simp only [Bool.and_eq_true, decide_eq_true_eq] at h1
      simp only [decide_eq_true_eq] at h2
      obtain ⟨x, hxmem, hx⟩ := List.any_eq_true.mp h2.2
      have hxp := of_decide_eq_true hx
      exact hnotin (by
        rw [← show x.id = a.id from hxp.1.trans h1.2]
        exact List.mem_map_of_mem _ hxmem)
    · rw [List.filter_cons_of_neg (by simpa using hcat), iht]
      refine countP_congr' fun l _ => ?_
      have hb : ∀ (x y : Bool), (x = true ↔ y = true) → x = y :=
        fun x y hxy => by cases x <;> cases y <;> simp_all
      apply hb
      simp only [decide_eq_true_eq, List.any_cons, Bool.or_eq_true]
      constructor
      · rintro ⟨hs, hrest⟩
        exact ⟨hs, Or.inr hrest⟩
      · rintro ⟨hs, hone | hrest⟩
        · exact absurd hone.2 hcat
        · exact ⟨hs, hrest⟩

/-- Lookup by id succeeds for any member (first matching row). -/
theorem find?_id_exists {α : Type} (f : α → Nat) {l : List α} {a : α}
    (ha : a ∈ l) :
    ∃ b, l.find? (fun x => f x = f a) = some b ∧ f b = f a := by
  have hs : (l.find? (fun x => f x = f a)).isSome :=
    List.find?_isSome.mpr ⟨a, ha, by simp⟩
  obtain ⟨b, hb⟩ := Option.isSome_iff_exists.mp hs
  exact ⟨b, hb, by simpa using List.find?_some hb⟩

theorem jsRound2_zero : jsRound2 0 = 0 := by
  rw [jsRound2, ratFloor_eq_floor]
  norm_num

/-- C8: every category yields a row of the category summary whose
utilization rate is the active-lending count divided by the asset
count, rounded to two decimals JavaScript-style, and zero when the
category has no assets; zero-asset categories still appear, with the
'N/A' placeholder as most- and least-lent asset names. -/
theorem categorySummary_utilization {db : DB} {c : Category}
    (hnd : (db.assets.map (·.id)).Nodup) (hc : c ∈ db.categories) :
    ∃ row ∈ generateCategorySummaryReport db,
      row.category_id = c.id ∧
      row.total_assets = totalAssetCount db c.id ∧
      row.active_lendings = activeLendingCount db c.id ∧
      row.utilization_rate = (if 0 < totalAssetCount db c.id then
        jsRound2 ((activeLendingCount db c.id : ℚ) /
          (totalAssetCount db c.id : ℚ))
        else 0) ∧
      (totalAssetCount db c.id = 0 →
        row.most_lent_asset = "N/A" ∧ row.least_lent_asset = "N/A" ∧
        row.utilization_rate = 0) := by
  classical
  -- the categoryStats row for c and the report row built from it
  refine ⟨categorySummaryRow db
    { category_id := c.id
      category_name := c.name
      total_assets :=
        (db.assets.filter (fun a => a.category_id = c.id)).length
      total_current_value :=
        if ((db.assets.filter (fun a => a.category_id = c.id)).filterMap
            (·.current_value)).isEmpty then none
        else some ((db.assets.filter
          (fun a => a.category_id = c.id)).filterMap (·.current_value)).sum },
    ?_, ?_⟩
  · unfold generateCategorySummaryReport categoryStats
    exact List.mem_map_of_mem _ (List.mem_map_of_mem _ hc)
  · -- the lending-stats lookup for c succeeds and carries the join counts
    obtain ⟨c'', hc'', hcid⟩ := find?_id_exists Category.id hc
    have hfind : (lendingStats db).find?
        (fun r => r.category_id = c.id) = some
          { category_id := c''.id
            total_lendings :=
              ((db.assets.filter (fun a => a.category_id = c''.id)).flatMap
                (fun a => db.lendings.filter
                  (fun l => l.asset_id = a.id))).length
            active_lendings :=
              (((db.assets.filter (fun a => a.category_id = c''.id)).flatMap
                (fun a => db.lendings.filter (fun l => l.asset_id = a.id))).filter
                  (fun l => l.status = LendingStatus.active)).length } := by
      unfold lendingStats
      rw [List.find?_map]
      have hp : ((fun r : LendingStatsRow => decide (r.category_id = c.id)) ∘
          (fun c' : Category =>
            ({ category_id := c'.id
               total_lendings :=
                 ((db.assets.filter (fun a => a.category_id = c'.id)).flatMap
                   (fun a => db.lendings.filter
                     (fun l => l.asset_id = a.id))).length
               active_lendings :=
                 (((db.assets.filter
                     (fun a => a.category_id = c'.id)).flatMap
                   (fun a => db.lendings.filter
                     (fun l => l.asset_id = a.id))).filter
                     (fun l => l.status = LendingStatus.active)).length } :
              LendingStatsRow))) =
          (fun c' : Category => decide (c'.id = c.id)) := by
        funext c'
        rfl
      rw [hp, hc'']
      rfl
    have hactive : (((db.assets.filter
        (fun a => a.category_id = c''.id)).flatMap
          (fun a => db.lendings.filter (fun l => l.asset_id = a.id))).filter
            (fun l => l.status = LendingStatus.active)).length =
        activeLendingCount db c.id := by
      rw [hcid]
      exact join_active_count db.assets db.lendings c.id hnd
    refine ⟨rfl, rfl, ?_, ?_, ?_⟩
    · show (match (lendingStats db).find? (fun r => r.category_id = c.id) with
        | some l => l.active_lendings
        | none => 0) = activeLendingCount db c.id
      rw [hfind]
      exact hactive
    · show jsRound2 (if 0 < (db.assets.filter
          (fun a => a.category_id = c.id)).length then
            ((match (lendingStats db).find?
              (fun r => r.category_id = c.id) with
              | some l => l.active_lendings
              | none => 0 : Nat) : ℚ) /
              ((db.assets.filter (fun a => a.category_id = c.id)).length : ℚ)
          else 0) = _
      rw [hfind]
      dsimp only
      unfold totalAssetCount
      by_cases hpos : 0 < (db.assets.filter
          (fun a => a.category_id = c.id)).length
      · rw [if_pos hpos, if_pos hpos, hactive]
      · rw [if_neg hpos, if_neg hpos, jsRound2_zero]
    · intro hzero
      have hempty : db.assets.filter (fun a => a.category_id = c.id) = [] :=
        List.length_eq_zero.mp hzero
      have hcomp : ((fun r : AssetPopularityRow =>
          decide (r.category_id = c.id)) ∘ (fun a : Asset =>
            ({ category_id := a.category_id, asset_id := a.id
               asset_name := a.name
               lending_count := (db.lendings.filter
                 (fun l => l.asset_id = a.id)).length } :
              AssetPopularityRow))) =
          (fun a : Asset => decide (a.category_id = c.id)) := rfl
      have hpop : (assetPopularity db).filter
          (fun r => r.category_id = c.id) = [] := by
        unfold assetPopularity
        rw [List.filter_map, hcomp, hempty]
        rfl
      refine ⟨?_, ?_, ?_⟩
      · show (match ((assetPopularity db).filter
            (fun r => r.category_id = c.id)).mergeSort
              (fun a b => b.lending_count ≤ a.lending_count) |>.head? with
          | some m => if m.asset_name = "" then "N/A" else m.asset_name
          | none => "N/A") = "N/A"
        rw [hpop, List.mergeSort_nil]
        rfl
      · show (match ((assetPopularity db).filter
            (fun r => r.category_id = c.id)).mergeSort
              (fun a b => b.lending_count ≤ a.lending_count) |>.getLast? with
          | some m => if m.asset_name = "" then "N/A" else m.asset_name
          | none => "N/A") = "N/A"
        rw [hpop, List.mergeSort_nil]
        rfl
      · show jsRound2 (if 0 < (db.assets.filter
            (fun a => a.category_id = c.id)).length then
              ((match (lendingStats db).find?
                (fun r => r.category_id = c.id) with
                | some l => l.active_lendings
                | none => 0 : Nat) : ℚ) /
                ((db.assets.filter
                  (fun a => a.category_id = c.id)).length : ℚ)
            else 0) = 0
        rw [hempty]
        simp [jsRound2_zero]

/-- Witness for C8: in the concrete store with one category holding
four assets and two active lendings, the summary row exists and its
utilization rate evaluates to exactly one half. -/
theorem categorySummary_utilization_witness :
    (∃ row ∈ generateCategorySummaryReport demoRepDB,
      row.category_id = demoCategory.id ∧
      row.total_assets = totalAssetCount demoRepDB demoCategory.id ∧
      row.active_lendings = activeLendingCount demoRepDB demoCategory.id ∧
      row.utilization_rate =
        (if 0 < totalAssetCount demoRepDB demoCategory.id then
          jsRound2 ((activeLendingCount demoRepDB demoCategory.id : ℚ) /
            (totalAssetCount demoRepDB demoCategory.id : ℚ))
        else 0) ∧
      (totalAssetCount demoRepDB demoCategory.id = 0 →
        row.most_lent_asset = "N/A" ∧ row.least_lent_asset = "N/A" ∧
        row.utilization_rate = 0)) ∧
    totalAssetCount demoRepDB demoCategory.id = 4 ∧
    activeLendingCount demoRepDB demoCategory.id = 2 ∧
    jsRound2 ((2 : ℚ) / 4) = 1 / 2 :=
  ⟨categorySummary_utilization (by decide) (by decide), by decide, by decide,
    by rw [jsRound2, ratFloor_eq_floor]; norm_num⟩

/-- A monetary amount that is a whole number of hundredths survives the
fixed-point storage rounding exactly. -/
theorem centsOut_toCents (k : ℤ) :
    centsOut (toCents ((k : ℚ) / 100)) = (k : ℚ) / 100 := by
  have h1 : ((k : ℚ) / 100) * 100 = (k : ℚ) :=
    div_mul_cancel₀ _ (by norm_num)
  rw [toCents, ratFloor_eq_floor, h1]
  have h2 : ⌊(k : ℚ) + 1 / 2⌋ = k := by
    rw [add_comm, Int.floor_add_int]
    norm_num
  rw [h2, centsOut]

/-- C7 amended: for a valid asset input whose monetary fields are whole
numbers of hundredths (two-decimal amounts, as `numeric(10, 2)` stores
them), a successful `createAsset` returns those amounts as numbers and
`getAssetById` on the new id returns them unchanged — the round trip is
exact. (For amounts with more than two decimals the stored value is
rounded first, see the counterexample.) -/
theorem createAsset_price_roundtrip
    {input : CreateAssetInput} {now : Timestamp} {db : DB} {aOut : AssetOut}
    {db' : DB} {p q : ℚ} {k m : ℤ}
    (h : createAsset input now db = .ok (aOut, db'))
    (hpp : input.purchase_price = some p) (hp0 : 0 < p)
    (hk : p = (k : ℚ) / 100)
    (hcv : input.current_value = some q) (hq0 : 0 < q)
    (hm : q = (m : ℚ) / 100) :
    aOut.purchase_price = some p ∧
    aOut.current_value = some q ∧
    ∃ av, getAssetById aOut.id db' = some av ∧
      av.asset.purchase_price = some p ∧
      av.asset.current_value = some q := by
  have hmp : moneyIn input.purchase_price = some (toCents p) := by
    rw [hpp]
    show (if p = 0 then none else some (toCents p)) = some (toCents p)
    rw [if_neg (ne_of_gt hp0)]
  have hmq : moneyIn input.current_value = some (toCents q) := by
    rw [hcv]
    show (if q = 0 then none else some (toCents q)) = some (toCents q)
    rw [if_neg (ne_of_gt hq0)]
  have hback_p : centsOut (toCents p) = p := by
    rw [hk]; exact centsOut_toCents k
  have hback_q : centsOut (toCents q) = q := by
    rw [hm]; exact centsOut_toCents m
  unfold createAsset at h
  split at h
  · cases h
  next hnonempty =>
    simp only [Except.ok.injEq, Prod.mk.injEq] at h
    obtain ⟨haout, hdb'⟩ := h
    subst haout
    subst hdb'
    refine ⟨?_, ?_, ?_⟩
    · show (moneyIn input.purchase_price).map centsOut = some p
      rw [hmp]
      show some (centsOut (toCents p)) = some p
      rw [hback_p]
    · show (moneyIn input.current_value).map centsOut = some q
      rw [hmq]
      show some (centsOut (toCents q)) = some q
      rw [hback_q]
    · unfold getAssetById assetCategoryJoin
      dsimp only [Asset.toOut]
      rw [List.flatMap_append, List.find?_append]
      have hfirst : (db.assets.flatMap (fun a =>
          (db.categories.filter (fun c => c.id = a.category_id)).map
            (fun c => (a, c)))).find?
          (fun pr => pr.1.id = freshId (db.assets.map (·.id))) = none := by
        apply List.find?_eq_none.mpr
        intro pr hpr
        simp only [List.mem_flatMap, List.mem_map] at hpr
        obtain ⟨x, hx, c0, hc0, rfl⟩ := hpr
        simp only [decide_eq_true_eq]
        intro hxid
        exact freshId_not_mem (db.assets.map (·.id))
          (hxid ▸ List.mem_map_of_mem _ hx)
      rw [hfirst]
      simp only [List.flatMap_cons, List.flatMap_nil, List.append_nil,
        Option.none_or]
      cases hfil : db.categories.filter
          (fun c => c.id = input.category_id) with
      | nil =>
        exact absurd (by rw [hfil]; rfl) hnonempty
      | cons c0 t =>
        rw [List.map_cons, List.find?_cons_of_pos _ (by simp)]
        refine ⟨_, rfl, ?_, ?_⟩
        · show (moneyIn input.purchase_price).map centsOut = some p
          rw [hmp]
          show some (centsOut (toCents p)) = some p
          rw [hback_p]
        · show (moneyIn input.current_value).map centsOut = some q
          rw [hmq]
          show some (centsOut (toCents q)) = some q
          rw [hback_q]

/-- Witness for the amended C7: creating an asset priced 1500.50 (with
current value 1200.00) and reading it back yields both amounts
unchanged, as numbers. -/
theorem createAsset_price_roundtrip_witness :
    demoPricedAsset.toOut.purchase_price = some ((150050 : ℚ) / 100) ∧
    demoPricedAsset.toOut.current_value = some ((120000 : ℚ) / 100) ∧
    ∃ av, getAssetById demoPricedAsset.toOut.id demoDBPriced = some av ∧
      av.asset.purchase_price = some ((150050 : ℚ) / 100) ∧
      av.asset.current_value = some ((120000 : ℚ) / 100) :=
  @createAsset_price_roundtrip demoPricedIn 5 demoDB1 demoPricedAsset.toOut
    demoDBPriced ((150050 : ℚ) / 100) ((120000 : ℚ) / 100) 150050 120000
    rfl rfl (by norm_num) (by norm_num) rfl (by norm_num) (by norm_num)

/-- C7 counterexample: the input price 0.005 is a valid (positive)
number, yet the round trip returns 0.01 — the `numeric(10, 2)` column
rounds to two decimals on insert, so the claim's "returns the number p
for every valid input" fails. -/
theorem createAsset_price_roundtrip_counterexample :
    (0 : ℚ) < 1 / 200 ∧
    createAsset demoTinyIn 5 demoDB1 =
      .ok (demoTinyAsset.toOut, demoDBTiny) ∧
    getAssetById demoTinyAsset.toOut.id demoDBTiny =
      some { asset := demoTinyAsset.toOut, category := demoCategory } ∧
    demoTinyAsset.toOut.purchase_price = some ((1 : ℚ) / 100) ∧
    some ((1 : ℚ) / 100) ≠ some ((1 : ℚ) / 200) := by
  refine ⟨by norm_num, rfl, rfl, ?_, ?_⟩
  · show Option.map centsOut (moneyIn (some ((1 : ℚ) / 200))) =
      some ((1 : ℚ) / 100)
    have hm : moneyIn (some ((1 : ℚ) / 200)) = some (toCents ((1 : ℚ) / 200)) := by
      show (if ((1 : ℚ) / 200) = 0 then none
        else some (toCents ((1 : ℚ) / 200))) = some (toCents ((1 : ℚ) / 200))
      rw [if_neg (by norm_num)]
    rw [hm]
    have h1 : toCents ((1 : ℚ) / 200) = 1 := by
      rw [toCents, ratFloor_eq_floor]
      norm_num
    show some (centsOut (toCents ((1 : ℚ) / 200))) = some ((1 : ℚ) / 100)
    rw [h1]
    show some (((1 : ℤ) : ℚ) / 100) = some ((1 : ℚ) / 100)
    norm_num
  · simp only [ne_eq, Option.some.injEq]
    norm_num
